import Mathlib

/-!
# Hazel event system: classification and dispatch

A shallow embedding of `Hazel/Core.h` (`BIT`) and `Hazel/Events/Event.h`
(`EventType`, `EventCategory`, the `EVENT_CLASS_TYPE` and
`EVENT_CLASS_CATEGORY` generators, `Event`, `EventDispatcher`).

Conventions.

* C++ `int` values are modelled by `Int`.  `Int.land` and `Int.lor` are the
  two's complement operations of unbounded width, which agree with the 32-bit
  operators `&` and `|` on every 32-bit value, so a statement proved for all
  of `Int` holds for all of `int`.
* A concrete event type is the record of what it supplies to the `Event`
  interface (`EventClass`).  An event object is its dynamic type, its data
  members (`payload`) and the base-class member `m_Handled`.
* A handler `std::function<bool(T&)>` may write to the event it receives and
  to the rest of the program; it is a function from the event and an ambient
  state to its result, the payload it leaves and the ambient state it leaves.
* `EventDispatcher` holds a reference; the referenced object is carried in the
  dispatcher value and handed back by every operation.
-/

namespace Hazel

/-! ## Core.h -/

/-- Expansion of `#define BIT(x) (1 << x)`.  The sources use it with the
literals 0 to 4 only, where the `int` shift does not overflow. -/
def BIT (x : Int) : Int := 1 <<< x

/-! ## Event.h: enumerations -/

/-- Enumerators of `enum class EventType`. -/
inductive EventType where
  | None
  | WindowClose | WindowResize | WindowFocus | WindowLostFocus | WindowMoved
  | AppTick | AppUpdate | AppRender
  | KeyPressed | KeyReleased
  | MouseButtonPressed | MouseButtonReleased | MouseMoved | MouseScrolled
  deriving DecidableEq, Repr

/-- Underlying value of an `EventType` enumerator: `None = 0`, every later
enumerator is one more than the one before it. -/
def EventType.val : EventType → Int
  | .None => 0
  | .WindowClose => 0 + 1
  | .WindowResize => 0 + 1 + 1
  | .WindowFocus => 0 + 1 + 1 + 1
  | .WindowLostFocus => 0 + 1 + 1 + 1 + 1
  | .WindowMoved => 0 + 1 + 1 + 1 + 1 + 1
  | .AppTick => 0 + 1 + 1 + 1 + 1 + 1 + 1
  | .AppUpdate => 0 + 1 + 1 + 1 + 1 + 1 + 1 + 1
  | .AppRender => 0 + 1 + 1 + 1 + 1 + 1 + 1 + 1 + 1
  | .KeyPressed => 0 + 1 + 1 + 1 + 1 + 1 + 1 + 1 + 1 + 1
  | .KeyReleased => 0 + 1 + 1 + 1 + 1 + 1 + 1 + 1 + 1 + 1 + 1
  | .MouseButtonPressed => 0 + 1 + 1 + 1 + 1 + 1 + 1 + 1 + 1 + 1 + 1 + 1
  | .MouseButtonReleased => 0 + 1 + 1 + 1 + 1 + 1 + 1 + 1 + 1 + 1 + 1 + 1 + 1
  | .MouseMoved => 0 + 1 + 1 + 1 + 1 + 1 + 1 + 1 + 1 + 1 + 1 + 1 + 1 + 1
  | .MouseScrolled => 0 + 1 + 1 + 1 + 1 + 1 + 1 + 1 + 1 + 1 + 1 + 1 + 1 + 1 + 1

/-- Stringification `#type` of an enumerator token, as `EVENT_CLASS_TYPE`
uses it for `GetName`. -/
def EventType.stringize : EventType → String
  | .None => "None"
  | .WindowClose => "WindowClose"
  | .WindowResize => "WindowResize"
  | .WindowFocus => "WindowFocus"
  | .WindowLostFocus => "WindowLostFocus"
  | .WindowMoved => "WindowMoved"
  | .AppTick => "AppTick"
  | .AppUpdate => "AppUpdate"
  | .AppRender => "AppRender"
  | .KeyPressed => "KeyPressed"
  | .KeyReleased => "KeyReleased"
  | .MouseButtonPressed => "MouseButtonPressed"
  | .MouseButtonReleased => "MouseButtonReleased"
  | .MouseMoved => "MouseMoved"
  | .MouseScrolled => "MouseScrolled"

/-- Enumerators of the unscoped `enum EventCategory`. -/
inductive EventCategory where
  | None
  | EventCategoryApplication
  | EventCategoryInput
  | EventCategoryKeyboard
  | EventCategoryMouse
  | EventCategoryMouseButton
  deriving DecidableEq, Repr

/-- Value of an `EventCategory` enumerator, as written in the enum. -/
def EventCategory.val : EventCategory → Int
  | .None => 0
  | .EventCategoryApplication => BIT 0
  | .EventCategoryInput => BIT 1
  | .EventCategoryKeyboard => BIT 2
  | .EventCategoryMouse => BIT 3
  | .EventCategoryMouseButton => BIT 4

/-! ## Event.h: concrete event types -/

/-- The three members `EVENT_CLASS_TYPE(type)` adds to a concrete event
type. -/
structure EventClassType where
  GetStaticType : EventType
  GetEventType : EventType
  GetName : String

/-- Expansion of `EVENT_CLASS_TYPE(type)`: `GetStaticType` returns
`EventType::type`, `GetEventType` returns `GetStaticType()`, `GetName` returns
`#type`. -/
def EVENT_CLASS_TYPE (type : EventType) : EventClassType :=
  let GetStaticType : EventType := type
  { GetStaticType := GetStaticType
    GetEventType := GetStaticType
    GetName := type.stringize }

/-- Expansion of `EVENT_CLASS_CATEGORY(category)`: the value the generated
`GetCategoryFlags` returns. -/
def EVENT_CLASS_CATEGORY (category : Int) : Int := category

/-- A concrete event type over data members `P`: its static kind accessor and
its overrides of the virtual members of `Event`.  `ToString` is `none` when the
type keeps the base-class implementation. -/
structure EventClass (P : Type) extends EventClassType where
  GetCategoryFlags : Int
  ToString : Option (P → String)

/-- A concrete event type written with the two generators, with an optional
`ToString` override. -/
def EventClass.declare {P : Type} (type : EventType) (category : Int)
    (toStr : Option (P → String)) : EventClass P :=
  { toEventClassType := EVENT_CLASS_TYPE type
    GetCategoryFlags := EVENT_CLASS_CATEGORY category
    ToString := toStr }

/-! ## Event.h: `class Event` -/

/-- An event object: dynamic type, data members of the concrete type, and the
protected member `bool m_Handled = false`. -/
structure Event (P : Type) where
  cls : EventClass P
  payload : P
  m_Handled : Bool := false

namespace Event

variable {P : Type}

/-- Virtual call `GetEventType()`. -/
def GetEventType (e : Event P) : EventType := e.cls.GetEventType

/-- Virtual call `GetName()`. -/
def GetName (e : Event P) : String := e.cls.GetName

/-- Virtual call `GetCategoryFlags()`. -/
def GetCategoryFlags (e : Event P) : Int := e.cls.GetCategoryFlags

/-- Virtual call `ToString()`: the override when the type has one, otherwise
the base implementation `return GetName();`. -/
def ToString (e : Event P) : String :=
  match e.cls.ToString with
  | some f => f e.payload
  | none => e.GetName

/-- Member `IsInCategory`: `return GetCategoryFlags() & category;`, the `int`
converted to `bool` (nonzero is true).  `category` is the value of the
enum-typed argument. -/
def IsInCategory (e : Event P) (category : Int) : Bool :=
  Int.land e.GetCategoryFlags category != 0

end Event

/-! ## Event.h: `class EventDispatcher` -/

/-- Handler type `EventFn<T> = std::function<bool(T&)>` in a program with
ambient state `W`: result, data members left in the event, ambient state
left. -/
abbrev EventFn (P W : Type) := Event P → W → Bool × P × W

/-- The dispatcher: its single member `Event& m_Event`. -/
structure EventDispatcher (P : Type) where
  m_Event : Event P

/-- What one `Dispatch` call leaves: the returned `bool`, the dispatcher (with
the referenced event) and the ambient state. -/
structure DispatchResult (P W : Type) where
  ret : Bool
  dispatcher : EventDispatcher P
  world : W

namespace EventDispatcher

variable {P W : Type}

/-- Member template `Dispatch<T>(func)`. -/
def Dispatch (d : EventDispatcher P) (T : EventClass P) (func : EventFn P W) (w : W) :
    DispatchResult P W :=
  if d.m_Event.GetEventType.val == T.GetStaticType.val then
    let r := func d.m_Event w
    { ret := true
      dispatcher := { m_Event := { d.m_Event with payload := r.2.1, m_Handled := r.1 } }
      world := r.2.2 }
  else
    { ret := false, dispatcher := d, world := w }

/-- A caller issuing `Dispatch<T₁>(h₁); …; Dispatch<Tₙ>(hₙ)` on one dispatcher:
the result of every call, in order. -/
def DispatchSeq (d : EventDispatcher P) (w : W) :
    List (EventClass P × EventFn P W) → List (DispatchResult P W)
  | [] => []
  | (T, h) :: rest =>
    let r := d.Dispatch T h w
    r :: DispatchSeq r.dispatcher r.world rest

/-- Event referenced by the dispatcher after a sequence of calls whose results
are `rs`, `d` being the dispatcher before the first call. -/
def finalEvent (d : EventDispatcher P) (rs : List (DispatchResult P W)) : Event P :=
  match rs.getLast? with
  | some r => r.dispatcher.m_Event
  | none => d.m_Event

end EventDispatcher

/-! ## Observing handler invocations -/

/-- Handler `h` observed: every invocation appends the tag `t` to a log kept
beside the ambient state, and otherwise behaves as `h`. -/
def EventFn.logged {P W ι : Type} (t : ι) (h : EventFn P W) : EventFn P (W × List ι) :=
  fun e s =>
    let r := h e s.1
    (r.1, r.2.1, (r.2.2, s.2 ++ [t]))

/-- A sequence of tagged calls with every handler observed. -/
def observed {P W ι : Type} (calls : List (ι × EventClass P × EventFn P W)) :
    List (EventClass P × EventFn P (W × List ι)) :=
  calls.map fun c => (c.2.1, c.2.2.logged c.1)

/-- Category flags of a type declared with the bitwise OR of the enumerators
listed in `S`, as in `EVENT_CLASS_CATEGORY(f₁ | f₂ | …)`. -/
def categoryUnion (S : List EventCategory) : Int :=
  S.foldr (fun f acc => Int.lor f.val acc) 0

/-! ## Sample concrete types and handlers -/

/-- Modelled from the spec: the concrete type `KeyPressedEvent`, whose header is
not among the sources, as a type written with `EVENT_CLASS_TYPE(KeyPressed)`.
Its data members are a list of integers; its category flags are not fixed by
the spec and stay a parameter. -/
def KeyPressedEvent (flags : Int) : EventClass (List Int) :=
  EventClass.declare .KeyPressed flags none

/-- Modelled from the spec: the concrete type `WindowResizeEvent`, whose header
is not among the sources, as a type written with
`EVENT_CLASS_TYPE(WindowResize)`.  Its data members are a list of integers
(width, height); its category flags are not fixed by the spec and stay a
parameter. -/
def WindowResizeEvent (flags : Int) : EventClass (List Int) :=
  EventClass.declare .WindowResize flags none

/-- A key-press event object with key code 65 and repeat count 0, not yet
handled. -/
def sampleKeyPressed : Event (List Int) :=
  { cls := KeyPressedEvent 6, payload := [65, 0] }

/-- A mouse-button event object: a type declared with
`EVENT_CLASS_CATEGORY(EventCategoryInput | EventCategoryMouse | EventCategoryMouseButton)`,
button code 1. -/
def sampleMouseButton : Event (List Int) :=
  { cls := EventClass.declare .MouseButtonPressed
      (categoryUnion [.EventCategoryInput, .EventCategoryMouse, .EventCategoryMouseButton]) none
    payload := [1] }

/-- A handler that counts its calls in the ambient state, bumps every data
member of the event and reports the event as handled. -/
def acceptHandler : EventFn (List Int) Nat :=
  fun e n => (true, e.payload.map (· + 1), n + 1)

/-- A handler that counts its calls in the ambient state, leaves the event
alone and declines it. -/
def declineHandler : EventFn (List Int) Nat :=
  fun e n => (false, e.payload, n + 1)

/-- The two calls of the scenario on a key-press event:
`Dispatch<WindowResizeEvent>(h1)` then `Dispatch<KeyPressedEvent>(h2)`, both
handlers accepting, tagged by their names. -/
def sampleCalls : List (String × EventClass (List Int) × EventFn (List Int) Nat) :=
  [("h1", WindowResizeEvent 1, acceptHandler), ("h2", KeyPressedEvent 6, acceptHandler)]

/-- An event object of a type declared with `EVENT_CLASS_CATEGORY(None)`: its
category flags are 0. -/
def sampleUncategorized : Event (List Int) :=
  { cls := EventClass.declare .AppTick EventCategory.None.val none, payload := [] }

/-- A handler that counts its calls in the ambient state, leaves the event
alone and reports it as handled only when its first data member (the key code)
is 65. -/
def keyIs65Handler : EventFn (List Int) Nat :=
  fun e n => (e.payload.head? == some 65, e.payload, n + 1)

/-- The calls `calls`, issued in order on dispatcher `d` from ambient state
`w`, hold no declining match: each call, at the moment it is issued, either has
a target type whose static kind differs from the kind of the event or has its
handler return true on the event and ambient state it is called with. -/
def EventDispatcher.NoDecliningMatch {P W : Type} (d : EventDispatcher P) (w : W) :
    List (EventClass P × EventFn P W) → Prop
  | [] => True
  | (T, h) :: rest =>
    (T.GetStaticType ≠ d.m_Event.GetEventType ∨ (h d.m_Event w).1 = true) ∧
      EventDispatcher.NoDecliningMatch (d.Dispatch T h w).dispatcher (d.Dispatch T h w).world rest

/-! ## Helper lemmas -/

theorem EventType.val_inj (a b : EventType) : a.val = b.val ↔ a = b := by
  cases a <;> cases b <;> decide

theorem int_eq_zero_iff_testBit (x : Int) : x = 0 ↔ ∀ k : Nat, x.testBit k = false := by
  constructor
  · rintro rfl k
    simp [Int.testBit]
  · intro h
    cases x with
    | ofNat n =>
      have hn : n = 0 := by
        apply Nat.eq_of_testBit_eq
        intro i
        have hi := h i
        simpa [Int.testBit] using hi
      simp [hn]
    | negSucc n =>
      exfalso
      have h1 := h n
      have h2 : n.testBit n = false := Nat.testBit_lt_two_pow (Nat.lt_two_pow n)
      simp [Int.testBit, h2] at h1

theorem land_lor_eq_zero_iff (c a b : Int) :
    Int.land c (Int.lor a b) = 0 ↔ Int.land c a = 0 ∧ Int.land c b = 0 := by
  simp only [int_eq_zero_iff_testBit, Int.testBit_land, Int.testBit_lor]
  constructor
  · intro h
    constructor <;> intro k <;> have := h k <;> revert this <;>
      cases c.testBit k <;> cases a.testBit k <;> cases b.testBit k <;> simp
  · rintro ⟨h1, h2⟩ k
    have h3 := h1 k
    have h4 := h2 k
    revert h3 h4
    cases c.testBit k <;> cases a.testBit k <;> cases b.testBit k <;> simp

theorem lor_land_eq_zero_iff (a b c : Int) :
    Int.land (Int.lor a b) c = 0 ↔ Int.land a c = 0 ∧ Int.land b c = 0 := by
  simp only [int_eq_zero_iff_testBit, Int.testBit_land, Int.testBit_lor]
  constructor
  · intro h
    constructor <;> intro k <;> have := h k <;> revert this <;>
      cases c.testBit k <;> cases a.testBit k <;> cases b.testBit k <;> simp
  · rintro ⟨h1, h2⟩ k
    have h3 := h1 k
    have h4 := h2 k
    revert h3 h4
    cases c.testBit k <;> cases a.testBit k <;> cases b.testBit k <;> simp

theorem zero_land (c : Int) : Int.land 0 c = 0 := by
  rw [int_eq_zero_iff_testBit]
  intro k
  rw [Int.testBit_land]
  simp [Int.testBit]

theorem land_zero (c : Int) : Int.land c 0 = 0 := by
  rw [int_eq_zero_iff_testBit]
  intro k
  rw [Int.testBit_land]
  simp [Int.testBit]

theorem EventCategory.land_val_ne_zero_iff (g f : EventCategory) (hf : f ≠ .None) :
    Int.land g.val f.val ≠ 0 ↔ g = f := by
  cases g <;> cases f <;> first | exact absurd rfl hf | decide

theorem land_categoryUnion_ne_zero_iff (S : List EventCategory) (f : EventCategory)
    (hf : f ≠ .None) : Int.land (categoryUnion S) f.val ≠ 0 ↔ f ∈ S := by
  induction S with
  | nil => simp [categoryUnion, zero_land]
  | cons g S ih =>
    have hstep : categoryUnion (g :: S) = Int.lor g.val (categoryUnion S) := rfl
    rw [hstep, Ne, lor_land_eq_zero_iff, not_and_or, List.mem_cons]
    constructor
    · rintro (h | h)
      · exact Or.inl ((EventCategory.land_val_ne_zero_iff g f hf).1 h).symm
      · exact Or.inr (ih.1 h)
    · rintro (h | h)
      · exact Or.inl ((EventCategory.land_val_ne_zero_iff g f hf).2 h.symm)
      · exact Or.inr (ih.2 h)

namespace EventDispatcher

variable {P W : Type}

theorem Dispatch_of_eq (d : EventDispatcher P) (T : EventClass P) (func : EventFn P W) (w : W)
    (hT : T.GetStaticType = d.m_Event.GetEventType) :
    d.Dispatch T func w =
      { ret := true
        dispatcher :=
          { m_Event := { d.m_Event with payload := (func d.m_Event w).2.1,
                                        m_Handled := (func d.m_Event w).1 } }
        world := (func d.m_Event w).2.2 } := by
  simp [Dispatch, hT]

theorem Dispatch_of_ne (d : EventDispatcher P) (T : EventClass P) (func : EventFn P W) (w : W)
    (hT : T.GetStaticType ≠ d.m_Event.GetEventType) :
    d.Dispatch T func w = { ret := false, dispatcher := d, world := w } := by
  have hv : ¬ d.m_Event.GetEventType.val = T.GetStaticType.val := fun hv =>
    hT ((EventType.val_inj _ _).1 hv).symm
  simp [Dispatch, hv]

theorem Dispatch_cls (d : EventDispatcher P) (T : EventClass P) (func : EventFn P W) (w : W) :
    (d.Dispatch T func w).dispatcher.m_Event.cls = d.m_Event.cls := by
  unfold Dispatch
  split <;> rfl

theorem Dispatch_GetEventType (d : EventDispatcher P) (T : EventClass P) (func : EventFn P W)
    (w : W) :
    (d.Dispatch T func w).dispatcher.m_Event.GetEventType = d.m_Event.GetEventType := by
  unfold Event.GetEventType
  rw [Dispatch_cls]

theorem DispatchSeq_no_match_append (d : EventDispatcher P) (w : W)
    (pre rest : List (EventClass P × EventFn P W))
    (hpre : ∀ c ∈ pre, c.1.GetStaticType ≠ d.m_Event.GetEventType) :
    d.DispatchSeq w (pre ++ rest) =
      List.replicate pre.length { ret := false, dispatcher := d, world := w } ++
        d.DispatchSeq w rest := by
  induction pre with
  | nil => simp
  | cons c pre ih =>
    obtain ⟨T, h⟩ := c
    have hc : T.GetStaticType ≠ d.m_Event.GetEventType := hpre (T, h) (List.mem_cons_self _ _)
    have hrest : ∀ c ∈ pre, c.1.GetStaticType ≠ d.m_Event.GetEventType := fun c hmem =>
      hpre c (List.mem_cons_of_mem _ hmem)
    simp only [List.cons_append, DispatchSeq, Dispatch_of_ne d T h w hc,
      List.length_cons, List.replicate_succ]
    exact congrArg _ (ih hrest)

theorem DispatchSeq_no_match (d : EventDispatcher P) (w : W)
    (calls : List (EventClass P × EventFn P W))
    (hcalls : ∀ c ∈ calls, c.1.GetStaticType ≠ d.m_Event.GetEventType) :
    d.DispatchSeq w calls =
      List.replicate calls.length { ret := false, dispatcher := d, world := w } := by
  have h := DispatchSeq_no_match_append d w calls [] hcalls
  simpa [DispatchSeq] using h

theorem finalEvent_replicate (d : EventDispatcher P) (n : Nat) (r : DispatchResult P W)
    (hr : r.dispatcher = d) : finalEvent d (List.replicate n r) = d.m_Event := by
  cases n with
  | zero => rfl
  | succ n => simp [finalEvent, List.getLast?_replicate, hr]

theorem finalEvent_append_cons_replicate (d : EventDispatcher P)
    (l : List (DispatchResult P W)) (r r2 : DispatchResult P W) (n : Nat)
    (hr : r2.dispatcher = r.dispatcher) :
    finalEvent d (l ++ r :: List.replicate n r2) = r.dispatcher.m_Event := by
  cases n with
  | zero => simp [finalEvent]
  | succ n =>
    have hne : List.replicate (n + 1) r2 ≠ [] := by simp
    simp [finalEvent, List.getLast?_append, List.getLast?_cons_cons, List.getLast?_replicate, hr,
      List.getLast?_eq_getLast _ (List.cons_ne_nil r _), List.getLast_cons hne]

theorem Dispatch_handled_of_handled (d : EventDispatcher P) (T : EventClass P)
    (h : EventFn P W) (w : W) (hd : d.m_Event.m_Handled = true) :
    (d.Dispatch T h w).dispatcher.m_Event.m_Handled = true ↔
      (T.GetStaticType ≠ d.m_Event.GetEventType ∨ (h d.m_Event w).1 = true) := by
  by_cases hT : T.GetStaticType = d.m_Event.GetEventType
  · rw [Dispatch_of_eq d T h w hT]
    simp [hT]
  · rw [Dispatch_of_ne d T h w hT]
    simp [hT, hd]

theorem DispatchSeq_handled_stays_iff (d : EventDispatcher P) (w : W)
    (calls : List (EventClass P × EventFn P W)) (hd : d.m_Event.m_Handled = true) :
    (d.DispatchSeq w calls).map (fun r => r.dispatcher.m_Event.m_Handled) =
        List.replicate calls.length true ↔
      d.NoDecliningMatch w calls := by
  induction calls generalizing d w with
  | nil => simp [DispatchSeq, NoDecliningMatch]
  | cons c calls ih =>
    obtain ⟨T, h⟩ := c
    simp only [DispatchSeq, List.map_cons, List.length_cons, List.replicate_succ,
      List.cons.injEq, NoDecliningMatch]
    constructor
    · rintro ⟨hstep, hrest⟩
      exact ⟨(Dispatch_handled_of_handled d T h w hd).1 hstep, (ih _ _ hstep).1 hrest⟩
    · rintro ⟨hcall, hrest⟩
      have hstep := (Dispatch_handled_of_handled d T h w hd).2 hcall
      exact ⟨hstep, (ih _ _ hstep).2 hrest⟩

end EventDispatcher

theorem dispatch_step_logged {P W ι : Type} (e : Event P) (T : EventClass P)
    (h : EventFn P W) (w : W) (log : List ι) (t : ι)
    (hT : T.GetStaticType = e.GetEventType) :
    (EventDispatcher.mk e).Dispatch T (h.logged t) (w, log) =
      { ret := true
        dispatcher := { m_Event := { e with payload := (h e w).2.1, m_Handled := (h e w).1 } }
        world := ((h e w).2.2, log ++ [t]) } := by
  rw [EventDispatcher.Dispatch_of_eq _ _ _ _ hT]
  rfl

/-! ## Dispatch on a single call -/

/-- C1: when the static kind of the target type `T` equals the kind the wrapped
event reports, `Dispatch<T>(h)` invokes `h` exactly once (the observation log
gains exactly the one tag of `h`) on the wrapped event `e`, stores the boolean
`h` returned in the handled flag, keeps what `h` left in the event and in the
ambient state, and returns true, whatever `h` returned. -/
theorem dispatch_match_invokes_once {P W ι : Type} (e : Event P) (T : EventClass P)
    (h : EventFn P W) (w : W) (log : List ι) (t : ι)
    (hT : T.GetStaticType = e.GetEventType) :
    (EventDispatcher.mk e).Dispatch T (h.logged t) (w, log) =
      { ret := true
        dispatcher := { m_Event := { e with payload := (h e w).2.1, m_Handled := (h e w).1 } }
        world := ((h e w).2.2, log ++ [t]) } :=
  dispatch_step_logged e T h w log t hT

/-- Witness for C1: a key-press event dispatched to `KeyPressedEvent` with a
handler that declines it; `Dispatch` still returns true. -/
theorem dispatch_match_invokes_once_witness :
    (KeyPressedEvent 6).GetStaticType = sampleKeyPressed.GetEventType ∧
    (EventDispatcher.mk sampleKeyPressed).Dispatch (KeyPressedEvent 6)
        (declineHandler.logged "h") (0, []) =
      { ret := true
        dispatcher := { m_Event := { sampleKeyPressed with
          payload := (declineHandler sampleKeyPressed 0).2.1,
          m_Handled := (declineHandler sampleKeyPressed 0).1 } }
        world := ((declineHandler sampleKeyPressed 0).2.2, [] ++ ["h"]) } :=
  ⟨rfl, dispatch_match_invokes_once sampleKeyPressed (KeyPressedEvent 6) declineHandler 0 [] "h" rfl⟩

/-- C2: when the static kind of the target type `T` differs from the kind the
wrapped event reports, `Dispatch<T>(h)` returns false, does not invoke `h` (the
observation log and the ambient state are unchanged) and leaves the whole
event, handled flag included, as it was. -/
theorem dispatch_mismatch_noop {P W ι : Type} (e : Event P) (T : EventClass P)
    (h : EventFn P W) (w : W) (log : List ι) (t : ι)
    (hT : T.GetStaticType ≠ e.GetEventType) :
    (EventDispatcher.mk e).Dispatch T (h.logged t) (w, log) =
      { ret := false, dispatcher := { m_Event := e }, world := (w, log) } :=
  EventDispatcher.Dispatch_of_ne _ _ _ _ hT

/-- Witness for C2: a key-press event that is already handled, dispatched to
`WindowResizeEvent`. -/
theorem dispatch_mismatch_noop_witness :
    (WindowResizeEvent 1).GetStaticType ≠ ({ sampleKeyPressed with m_Handled := true }).GetEventType ∧
    (EventDispatcher.mk { sampleKeyPressed with m_Handled := true }).Dispatch (WindowResizeEvent 1)
        (declineHandler.logged "h") (0, []) =
      { ret := false
        dispatcher := { m_Event := { sampleKeyPressed with m_Handled := true } }
        world := (0, []) } :=
  ⟨by decide,
   dispatch_mismatch_noop { sampleKeyPressed with m_Handled := true } (WindowResizeEvent 1)
     declineHandler 0 [] "h" (by decide)⟩

/-- C6: on a freshly constructed event (handled flag false), after a single
`Dispatch<T>(h)` the handled flag is true exactly when the static kind of `T`
equals the kind of the event and `h` returned true. -/
theorem fresh_dispatch_handled_iff {P W : Type} (cls : EventClass P) (payload : P)
    (T : EventClass P) (h : EventFn P W) (w : W) :
    ((EventDispatcher.mk { cls := cls, payload := payload }).Dispatch T h
        w).dispatcher.m_Event.m_Handled = true ↔
      (T.GetStaticType = ({ cls := cls, payload := payload } : Event P).GetEventType ∧
        (h { cls := cls, payload := payload } w).1 = true) := by
  by_cases hT : T.GetStaticType = ({ cls := cls, payload := payload } : Event P).GetEventType
  · rw [EventDispatcher.Dispatch_of_eq _ T h w hT]
    simp [hT]
  · rw [EventDispatcher.Dispatch_of_ne _ T h w hT]
    simp [hT]

/-! ## Sequences of calls on one dispatcher -/

/-- Counterexample to C5: on a key-press event, `Dispatch<KeyPressedEvent>` with
an accepting handler followed by `Dispatch<KeyPressedEvent>` with a declining
handler: both calls return true, the handled flag is true after the first call
and false again after the second. -/
theorem handled_flag_reset_counterexample :
    ((EventDispatcher.mk sampleKeyPressed).DispatchSeq 0
        [(KeyPressedEvent 6, acceptHandler), (KeyPressedEvent 6, declineHandler)]).map
      (fun r => (r.ret, r.dispatcher.m_Event.m_Handled)) = [(true, true), (true, false)] := by
  decide

/-- C5 (amended): once the handled flag is true, a `Dispatch` call makes it
false again exactly when the target type matches the kind of the event and the
handler returns false on that call; and over any sequence of calls, the handled
flag is true after every call exactly when each call, at the moment it is
issued, either does not match the kind of the event or has its handler return
true. -/
theorem handled_flag_reset_iff {P W : Type} (d : EventDispatcher P) (T : EventClass P)
    (h : EventFn P W) (w : W) (calls : List (EventClass P × EventFn P W))
    (hd : d.m_Event.m_Handled = true) :
    ((d.Dispatch T h w).dispatcher.m_Event.m_Handled = false ↔
      (T.GetStaticType = d.m_Event.GetEventType ∧ (h d.m_Event w).1 = false)) ∧
    ((d.DispatchSeq w calls).map (fun r => r.dispatcher.m_Event.m_Handled) =
        List.replicate calls.length true ↔
      d.NoDecliningMatch w calls) := by
  refine ⟨?_, EventDispatcher.DispatchSeq_handled_stays_iff d w calls hd⟩
  by_cases hT : T.GetStaticType = d.m_Event.GetEventType
  · rw [EventDispatcher.Dispatch_of_eq d T h w hT]
    simp [hT]
  · rw [EventDispatcher.Dispatch_of_ne d T h w hT]
    simp [hT, hd]

/-- Witness for C5 (amended): a handled key-press event with key code 65.  The
single call is a matching one with a declining handler.  The sequence is a
non-matching call followed by a matching call whose handler returns true on
this event (key code 65) though not on every event: it holds no declining
match, and the handled flag is true after both calls. -/
theorem handled_flag_reset_iff_witness :
    (EventDispatcher.mk { sampleKeyPressed with m_Handled := true }).m_Event.m_Handled = true ∧
    ((((EventDispatcher.mk { sampleKeyPressed with m_Handled := true }).Dispatch
          (KeyPressedEvent 6) declineHandler 0).dispatcher.m_Event.m_Handled = false ↔
      ((KeyPressedEvent 6).GetStaticType =
          (EventDispatcher.mk { sampleKeyPressed with m_Handled := true }).m_Event.GetEventType ∧
        (declineHandler
          (EventDispatcher.mk { sampleKeyPressed with m_Handled := true }).m_Event 0).1 = false)) ∧
    (((EventDispatcher.mk { sampleKeyPressed with m_Handled := true }).DispatchSeq 0
        [(WindowResizeEvent 1, declineHandler), (KeyPressedEvent 6, keyIs65Handler)]).map
      (fun r => r.dispatcher.m_Event.m_Handled) =
        List.replicate
          [(WindowResizeEvent 1, declineHandler), (KeyPressedEvent 6, keyIs65Handler)].length
          true ↔
      (EventDispatcher.mk { sampleKeyPressed with m_Handled := true }).NoDecliningMatch 0
        [(WindowResizeEvent 1, declineHandler), (KeyPressedEvent 6, keyIs65Handler)])) ∧
    (EventDispatcher.mk { sampleKeyPressed with m_Handled := true }).NoDecliningMatch 0
      [(WindowResizeEvent 1, declineHandler), (KeyPressedEvent 6, keyIs65Handler)] ∧
    ((EventDispatcher.mk { sampleKeyPressed with m_Handled := true }).DispatchSeq 0
        [(WindowResizeEvent 1, declineHandler), (KeyPressedEvent 6, keyIs65Handler)]).map
      (fun r => (r.ret, r.dispatcher.m_Event.m_Handled)) = [(false, true), (true, true)] ∧
    ¬ ∀ (e : Event (List Int)) (v : Nat), (keyIs65Handler e v).1 = true :=
  ⟨rfl,
    handled_flag_reset_iff _ (KeyPressedEvent 6) declineHandler 0
      [(WindowResizeEvent 1, declineHandler), (KeyPressedEvent 6, keyIs65Handler)] rfl,
    ⟨Or.inl (by decide), Or.inr (by decide), trivial⟩,
    by decide,
    fun hall => absurd (hall { sampleKeyPressed with payload := [66, 0] } 0) (by decide)⟩

/-- C7: over a sequence of `Dispatch` calls on one dispatcher whose target
types have pairwise distinct static kinds, either no target type matches, every
call returns false and leaves the event, the ambient state and the observation
log as they were; or exactly one call matches: the calls before it return false
and leave everything untouched, the matching call returns true and invokes its
handler once on the original event (the log gains its tag, and only it), and
the calls after it return false and leave untouched what the matching call
left.  The final handled flag is the result of the matching handler, or the
initial value when none matched. -/
theorem dispatch_distinct_kinds {P W ι : Type} (e : Event P) (w : W) (log : List ι)
    (calls : List (ι × EventClass P × EventFn P W))
    (hdistinct : (calls.map fun c => c.2.1.GetStaticType).Pairwise (· ≠ ·)) :
    ((∀ c ∈ calls, c.2.1.GetStaticType ≠ e.GetEventType) ∧
      (EventDispatcher.mk e).DispatchSeq (w, log) (observed calls) =
        List.replicate calls.length
          { ret := false, dispatcher := { m_Event := e }, world := (w, log) } ∧
      EventDispatcher.finalEvent (EventDispatcher.mk e)
        ((EventDispatcher.mk e).DispatchSeq (w, log) (observed calls)) = e) ∨
    ∃ (pre : List (ι × EventClass P × EventFn P W)) (t : ι) (T : EventClass P)
      (h : EventFn P W) (post : List (ι × EventClass P × EventFn P W)),
      calls = pre ++ (t, T, h) :: post ∧
      T.GetStaticType = e.GetEventType ∧
      (∀ c ∈ pre ++ post, c.2.1.GetStaticType ≠ e.GetEventType) ∧
      (EventDispatcher.mk e).DispatchSeq (w, log) (observed calls) =
        List.replicate pre.length
            { ret := false, dispatcher := { m_Event := e }, world := (w, log) } ++
          { ret := true
            dispatcher :=
              { m_Event := { e with payload := (h e w).2.1, m_Handled := (h e w).1 } }
            world := ((h e w).2.2, log ++ [t]) } ::
          List.replicate post.length
            { ret := false
              dispatcher :=
                { m_Event := { e with payload := (h e w).2.1, m_Handled := (h e w).1 } }
              world := ((h e w).2.2, log ++ [t]) } ∧
      (EventDispatcher.finalEvent (EventDispatcher.mk e)
        ((EventDispatcher.mk e).DispatchSeq (w, log) (observed calls))).m_Handled =
          (h e w).1 := by
  by_cases hex : ∃ c ∈ calls, c.2.1.GetStaticType = e.GetEventType
  · right
    obtain ⟨c, hc, hkind⟩ := hex
    obtain ⟨pre, post, hsplit⟩ := List.append_of_mem hc
    obtain ⟨t, T, h⟩ := c
    subst hsplit
    rw [List.map_append, List.map_cons, List.pairwise_append, List.pairwise_cons] at hdistinct
    obtain ⟨-, ⟨hpost, -⟩, hpre⟩ := hdistinct
    have hpre2 : ∀ c ∈ pre, c.2.1.GetStaticType ≠ e.GetEventType := fun c hmem => by
      have hne := hpre _ (List.mem_map_of_mem (fun c => c.2.1.GetStaticType) hmem)
        T.GetStaticType (List.mem_cons_self _ _)
      exact fun heq => hne (heq.trans hkind.symm)
    have hpost2 : ∀ c ∈ post, c.2.1.GetStaticType ≠ e.GetEventType := fun c hmem => by
      have hne := hpost _ (List.mem_map_of_mem (fun c => c.2.1.GetStaticType) hmem)
      exact fun heq => hne (hkind.trans heq.symm)
    have hseq : (EventDispatcher.mk e).DispatchSeq (w, log) (observed (pre ++ (t, T, h) :: post)) =
        List.replicate pre.length
            { ret := false, dispatcher := { m_Event := e }, world := (w, log) } ++
          { ret := true
            dispatcher :=
              { m_Event := { e with payload := (h e w).2.1, m_Handled := (h e w).1 } }
            world := ((h e w).2.2, log ++ [t]) } ::
          List.replicate post.length
            { ret := false
              dispatcher :=
                { m_Event := { e with payload := (h e w).2.1, m_Handled := (h e w).1 } }
              world := ((h e w).2.2, log ++ [t]) } := by
      have hobs : observed (pre ++ (t, T, h) :: post) =
          observed pre ++ (T, h.logged t) :: observed post := by
        simp [observed]
      have hpre3 : ∀ c ∈ observed pre,
          c.1.GetStaticType ≠ (EventDispatcher.mk e).m_Event.GetEventType := by
        intro c hmem
        obtain ⟨c0, hc0, rfl⟩ := List.mem_map.1 hmem
        exact hpre2 c0 hc0
      rw [hobs, EventDispatcher.DispatchSeq_no_match_append _ _ _ _ hpre3]
      have hlen : (observed pre).length = pre.length := by simp [observed]
      rw [hlen]
      congr 1
      rw [EventDispatcher.DispatchSeq, dispatch_step_logged e T h w log t hkind]
      congr 1
      have hpost3 : ∀ c ∈ observed post, c.1.GetStaticType ≠
          (EventDispatcher.mk
            ({ e with payload := (h e w).2.1, m_Handled := (h e w).1 } : Event P)).m_Event.GetEventType := by
        intro c hmem
        obtain ⟨c0, hc0, rfl⟩ := List.mem_map.1 hmem
        exact hpost2 c0 hc0
      rw [EventDispatcher.DispatchSeq_no_match _ _ _ hpost3]
      simp [observed]
    refine ⟨pre, t, T, h, post, rfl, hkind, ?_, hseq, ?_⟩
    · intro c hmem
      rcases List.mem_append.1 hmem with hmem | hmem
      · exact hpre2 c hmem
      · exact hpost2 c hmem
    · rw [hseq, EventDispatcher.finalEvent_append_cons_replicate]
      all_goals rfl
  · left
    have hall : ∀ c ∈ calls, c.2.1.GetStaticType ≠ e.GetEventType := fun c hc heq =>
      hex ⟨c, hc, heq⟩
    have hall2 : ∀ c ∈ observed calls,
        c.1.GetStaticType ≠ (EventDispatcher.mk e).m_Event.GetEventType := by
      intro c hmem
      obtain ⟨c0, hc0, rfl⟩ := List.mem_map.1 hmem
      exact hall c0 hc0
    have hseq := EventDispatcher.DispatchSeq_no_match (EventDispatcher.mk e) (w, log) _ hall2
    have hlen : (observed calls).length = calls.length := by simp [observed]
    rw [hlen] at hseq
    refine ⟨hall, hseq, ?_⟩
    rw [hseq]
    exact EventDispatcher.finalEvent_replicate _ _ _ rfl

/-- Witness for C7: a key-press event, `Dispatch<WindowResizeEvent>(h1)` then
`Dispatch<KeyPressedEvent>(h2)`: the first call returns false and changes
nothing, the second returns true; `h1` never runs and `h2` runs once (the call
counter ends at 1 and the log holds the tag of `h2` only). -/
theorem dispatch_distinct_kinds_witness :
    (sampleCalls.map fun c => c.2.1.GetStaticType).Pairwise (· ≠ ·) ∧
    (((∀ c ∈ sampleCalls, c.2.1.GetStaticType ≠ sampleKeyPressed.GetEventType) ∧
      (EventDispatcher.mk sampleKeyPressed).DispatchSeq (0, ([] : List String)) (observed sampleCalls) =
        List.replicate sampleCalls.length
          { ret := false, dispatcher := { m_Event := sampleKeyPressed }, world := (0, ([] : List String)) } ∧
      EventDispatcher.finalEvent (EventDispatcher.mk sampleKeyPressed)
        ((EventDispatcher.mk sampleKeyPressed).DispatchSeq (0, ([] : List String)) (observed sampleCalls)) = sampleKeyPressed) ∨
    ∃ (pre : List (String × EventClass (List Int) × EventFn (List Int) Nat)) (t : String) (T : EventClass (List Int))
      (h : EventFn (List Int) Nat) (post : List (String × EventClass (List Int) × EventFn (List Int) Nat)),
      sampleCalls = pre ++ (t, T, h) :: post ∧
      T.GetStaticType = sampleKeyPressed.GetEventType ∧
      (∀ c ∈ pre ++ post, c.2.1.GetStaticType ≠ sampleKeyPressed.GetEventType) ∧
      (EventDispatcher.mk sampleKeyPressed).DispatchSeq (0, ([] : List String)) (observed sampleCalls) =
        List.replicate pre.length
            { ret := false, dispatcher := { m_Event := sampleKeyPressed }, world := (0, ([] : List String)) } ++
          { ret := true
            dispatcher :=
              { m_Event := { sampleKeyPressed with payload := (h sampleKeyPressed 0).2.1, m_Handled := (h sampleKeyPressed 0).1 } }
            world := ((h sampleKeyPressed 0).2.2, ([] : List String) ++ [t]) } ::
          List.replicate post.length
            { ret := false
              dispatcher :=
                { m_Event := { sampleKeyPressed with payload := (h sampleKeyPressed 0).2.1, m_Handled := (h sampleKeyPressed 0).1 } }
              world := ((h sampleKeyPressed 0).2.2, ([] : List String) ++ [t]) } ∧
      (EventDispatcher.finalEvent (EventDispatcher.mk sampleKeyPressed)
        ((EventDispatcher.mk sampleKeyPressed).DispatchSeq (0, ([] : List String)) (observed sampleCalls))).m_Handled =
          (h sampleKeyPressed 0).1) ∧
    ((EventDispatcher.mk sampleKeyPressed).DispatchSeq (0, ([] : List String))
        (observed sampleCalls)).map
      (fun r => (r.ret, r.dispatcher.m_Event.m_Handled, r.dispatcher.m_Event.payload, r.world)) =
      [(false, false, [65, 0], (0, [])), (true, true, [66, 1], (1, ["h2"]))] :=
  ⟨by decide, dispatch_distinct_kinds sampleKeyPressed 0 [] sampleCalls (by decide), by decide⟩

/-- C10: when `T` matches the kind of the event, `Dispatch<T>(h1)` followed by
`Dispatch<T>(h2)` on the same dispatcher invokes both handlers, `h1` then `h2`
(the observation log gains both tags in that order, whatever `h1` returned),
both calls return true, and the final handled flag is the result of `h2`, run
on the event and ambient state that `h1` left. -/
theorem double_dispatch_reenters {P W ι : Type} (e : Event P) (T : EventClass P)
    (h1 h2 : EventFn P W) (w : W) (log : List ι) (t1 t2 : ι)
    (hT : T.GetStaticType = e.GetEventType) :
    (EventDispatcher.mk e).DispatchSeq (w, log) (observed [(t1, T, h1), (t2, T, h2)]) =
      [{ ret := true
         dispatcher :=
           { m_Event := { e with payload := (h1 e w).2.1, m_Handled := (h1 e w).1 } }
         world := ((h1 e w).2.2, log ++ [t1]) },
       { ret := true
         dispatcher :=
           { m_Event :=
               { e with
                 payload :=
                   (h2 { e with payload := (h1 e w).2.1, m_Handled := (h1 e w).1 }
                     (h1 e w).2.2).2.1
                 m_Handled :=
                   (h2 { e with payload := (h1 e w).2.1, m_Handled := (h1 e w).1 }
                     (h1 e w).2.2).1 } }
         world :=
           ((h2 { e with payload := (h1 e w).2.1, m_Handled := (h1 e w).1 } (h1 e w).2.2).2.2,
             log ++ [t1] ++ [t2]) }] := by
  have hT2 : T.GetStaticType =
      ({ e with payload := (h1 e w).2.1, m_Handled := (h1 e w).1 } : Event P).GetEventType := hT
  simp only [observed, List.map_cons, List.map_nil, EventDispatcher.DispatchSeq]
  rw [dispatch_step_logged e T h1 w log t1 hT]
  simp only
  rw [dispatch_step_logged _ T h2 _ _ t2 hT2]

/-- Witness for C10: a key-press event dispatched twice to `KeyPressedEvent`,
first with an accepting handler, then with a declining one. -/
theorem double_dispatch_reenters_witness :
    (KeyPressedEvent 6).GetStaticType = sampleKeyPressed.GetEventType ∧
    (EventDispatcher.mk sampleKeyPressed).DispatchSeq (0, ([] : List String))
        (observed [("h1", KeyPressedEvent 6, acceptHandler),
          ("h2", KeyPressedEvent 6, declineHandler)]) =
      [{ ret := true
         dispatcher := { m_Event := { sampleKeyPressed with payload := [66, 1], m_Handled := true } }
         world := (1, ["h1"]) },
       { ret := true
         dispatcher := { m_Event := { sampleKeyPressed with payload := [66, 1], m_Handled := false } }
         world := (2, ["h1", "h2"]) }] :=
  ⟨rfl, double_dispatch_reenters sampleKeyPressed (KeyPressedEvent 6) acceptHandler declineHandler
    0 [] "h1" "h2" rfl⟩

/-! ## Categories and kinds -/

/-- C3: `IsInCategory(f)` is true exactly when the bitwise AND of the category
flags of the event with `f` is nonzero. -/
theorem isInCategory_iff_land_ne_zero {P : Type} (e : Event P) (f : Int) :
    e.IsInCategory f = true ↔ Int.land e.GetCategoryFlags f ≠ 0 := by
  simp [Event.IsInCategory]

/-- C8: the five category flags are the powers of two 1, 2, 4, 8, 16 and `None`
is 0; and for every list `S` of flags, an event whose `GetCategoryFlags()` is
the bitwise OR of `S` is in the category of a single flag `f` exactly when `f`
is listed in `S`. -/
theorem category_flags_membership {P : Type} (S : List EventCategory) (e : Event P)
    (f : EventCategory) (hf : f ≠ .None) (hflags : e.GetCategoryFlags = categoryUnion S) :
    (EventCategory.None.val = 0 ∧ EventCategory.EventCategoryApplication.val = 1 ∧
      EventCategory.EventCategoryInput.val = 2 ∧ EventCategory.EventCategoryKeyboard.val = 4 ∧
      EventCategory.EventCategoryMouse.val = 8 ∧ EventCategory.EventCategoryMouseButton.val = 16) ∧
    (e.IsInCategory f.val = true ↔ f ∈ S) := by
  refine ⟨by decide, ?_⟩
  rw [← land_categoryUnion_ne_zero_iff S f hf, ← hflags]
  simp [Event.IsInCategory]

/-- Witness for C8: an event with flags Input|Mouse|MouseButton is in those
three categories and in neither Application nor Keyboard. -/
theorem category_flags_membership_witness :
    sampleMouseButton.IsInCategory EventCategory.EventCategoryInput.val = true ∧
    sampleMouseButton.IsInCategory EventCategory.EventCategoryMouse.val = true ∧
    sampleMouseButton.IsInCategory EventCategory.EventCategoryMouseButton.val = true ∧
    sampleMouseButton.IsInCategory EventCategory.EventCategoryApplication.val = false ∧
    sampleMouseButton.IsInCategory EventCategory.EventCategoryKeyboard.val = false := by
  have key := fun (f : EventCategory) (hf : f ≠ .None) =>
    (category_flags_membership
      [.EventCategoryInput, .EventCategoryMouse, .EventCategoryMouseButton]
      sampleMouseButton f hf rfl).2
  refine ⟨(key _ (by decide)).2 (by decide), (key _ (by decide)).2 (by decide),
    (key _ (by decide)).2 (by decide), ?_, ?_⟩
  · exact Bool.eq_false_iff.2 fun h => absurd ((key _ (by decide)).1 h) (by decide)
  · exact Bool.eq_false_iff.2 fun h => absurd ((key _ (by decide)).1 h) (by decide)

/-- C9: for any two category values `a` and `b`, `IsInCategory(a | b)` is the
logical OR of `IsInCategory(a)` and `IsInCategory(b)`: a multi-bit argument
tests whether any of its bits overlaps the flags of the event. -/
theorem isInCategory_lor {P : Type} (e : Event P) (a b : Int) :
    e.IsInCategory (Int.lor a b) = (e.IsInCategory a || e.IsInCategory b) := by
  rw [Bool.eq_iff_iff]
  simp only [Event.IsInCategory, bne_iff_ne, Bool.or_eq_true, Ne, land_lor_eq_zero_iff]
  tauto

/-- C4: a concrete type written with `EVENT_CLASS_TYPE(k)` has
`GetStaticType() == EventType::k`, and every instance of it (any data members,
any handled flag) reports that same kind from `GetEventType()`. -/
theorem event_class_type_kind {P : Type} (k : EventType) (category : Int)
    (toStr : Option (P → String)) (payload : P) (handled : Bool) :
    (EventClass.declare k category toStr).GetStaticType = k ∧
    (Event.mk (EventClass.declare k category toStr) payload handled).GetEventType =
      (EventClass.declare k category toStr).GetStaticType :=
  ⟨rfl, rfl⟩

/-- C12: the numeric encoding of `EventType` is `None = 0` followed by the
fourteen kinds with the consecutive values 1 to 14; it is injective, no kind
other than `None` has the value of `None`, and the comparison in `Dispatch`
succeeds (the call returns true) exactly when the kind of the event and the
static kind of the target type are the same enumerator. -/
theorem eventType_encoding_injective {P W : Type} :
    [EventType.None, .WindowClose, .WindowResize, .WindowFocus, .WindowLostFocus, .WindowMoved,
      .AppTick, .AppUpdate, .AppRender, .KeyPressed, .KeyReleased, .MouseButtonPressed,
      .MouseButtonReleased, .MouseMoved, .MouseScrolled].map EventType.val =
      [0, 1, 2, 3, 4, 5, 6, 7, 8, 9, 10, 11, 12, 13, 14] ∧
    (∀ a b : EventType, a.val = b.val ↔ a = b) ∧
    (∀ k : EventType, k.val = EventType.None.val ↔ k = .None) ∧
    ∀ (d : EventDispatcher P) (T : EventClass P) (func : EventFn P W) (w : W),
      (d.Dispatch T func w).ret = true ↔ d.m_Event.GetEventType = T.GetStaticType := by
  refine ⟨by decide, EventType.val_inj, fun k => EventType.val_inj k .None, ?_⟩
  intro d T func w
  by_cases hT : T.GetStaticType = d.m_Event.GetEventType
  · rw [EventDispatcher.Dispatch_of_eq d T func w hT]
    simp [hT]
  · rw [EventDispatcher.Dispatch_of_ne d T func w hT]
    simpa using fun heq => hT heq.symm

/-! ## Rendering -/

/-- C11: an event whose concrete type does not override `ToString` renders as
exactly the string its `GetName()` returns. -/
theorem toString_default_eq_getName {P : Type} (e : Event P) (hno : e.cls.ToString = none) :
    e.ToString = e.GetName := by
  simp [Event.ToString, hno]

/-- Witness for C11: the key-press sample, whose type has no `ToString`
override, renders as its name `KeyPressed`. -/
theorem toString_default_eq_getName_witness :
    sampleKeyPressed.cls.ToString = none ∧
    sampleKeyPressed.ToString = sampleKeyPressed.GetName ∧
    sampleKeyPressed.GetName = "KeyPressed" :=
  ⟨rfl, toString_default_eq_getName sampleKeyPressed rfl, rfl⟩

/-! ## The empty category -/

/-- C13: whatever the category flags of an event, `IsInCategory(None)` is
false; and an event whose category flags are `None` (0) is in no category:
`IsInCategory(f)` is false for every category value `f`. -/
theorem isInCategory_none {P : Type} (e : Event P) (f : Int) :
    e.IsInCategory EventCategory.None.val = false ∧
    (e.GetCategoryFlags = EventCategory.None.val → e.IsInCategory f = false) := by
  constructor
  · have hz : Int.land e.GetCategoryFlags EventCategory.None.val = 0 := land_zero _
    simp [Event.IsInCategory, hz]
  · intro hflags
    have hz : Int.land e.GetCategoryFlags f = 0 := by
      rw [hflags]
      exact zero_land f
    simp [Event.IsInCategory, hz]

/-- Witness for C13: an event of a type declared with category `None` is not in
`None` and not in the combination Input|Mouse|MouseButton; an event with those
three flags is not in `None` either. -/
theorem isInCategory_none_witness :
    sampleUncategorized.GetCategoryFlags = EventCategory.None.val ∧
    sampleUncategorized.IsInCategory EventCategory.None.val = false ∧
    sampleUncategorized.IsInCategory 26 = false ∧
    sampleMouseButton.IsInCategory EventCategory.None.val = false :=
  ⟨rfl, (isInCategory_none sampleUncategorized 26).1,
    (isInCategory_none sampleUncategorized 26).2 rfl,
    (isInCategory_none sampleMouseButton 0).1⟩

end Hazel
